import Mathlib

/-!
Verification of the work-hours-calculator core: a shallow embedding of the
time-string codec, the work-allocation engine, the merge/discrepancy
calculator and the WakaTime aggregator, together with theorems settling the
specification claims.

Conventions of the embedding:
* JS numbers that carry time quantities are embedded as `Nat`/`Int` where the
  source only ever produces integers (minute counts from `parseInt`), and as
  `Rat` where the source divides (per-day allocation, hours, percentages).
* Calendar dates normalized to local midnight are embedded as integer day
  numbers (days since 1970-01-01); adding one calendar day is `+ 1`.
  `Date.prototype.getDay` becomes `dayOfWeek`, `Date.prototype.toDateString`
  becomes `toDateString` below.
* The ambient clock (`new Date()` normalized to midnight) is passed as an
  explicit `today : Int` parameter.
* Functions that `throw` are embedded in `Except String`.
-/

/-! ## Time-string regular expression

The web app's parser uses the unanchored pattern
`(?:(\d+)\s*hrs?)?\s*(?:(\d+)\s*mins?)?` with the case-insensitive flag;
the CLI parser uses the same pattern anchored on both sides.  Both capture
groups are optional, so the pattern matches (a possibly empty prefix) at
index 0 of every string, and for this particular pattern the greedy
first-match is deterministic: a digit is neither whitespace nor a letter, so
no backtracking choice that the greedy scan rejects can ever succeed.  The
matcher below implements that greedy scan at index 0.  It returns the two
captured groups and the remainder of the string after the match (the
remainder is what the anchored variant requires to be empty). -/

/-- Character class of the regex token for whitespace as used between the
number and its unit (the inputs at issue only ever contain plain spaces). -/
def isWs (c : Char) : Bool :=
  c = ' ' || c = '\t' || c = '\n' || c = '\r'

/-- Numeric value of a decimal digit character. -/
def digitVal (c : Char) : Nat := c.toNat - '0'.toNat

/-- Decimal value of a digit run, as computed by parseInt with radix 10. -/
def digitsToNat (ds : List Char) : Nat :=
  ds.foldl (fun a c => 10 * a + digitVal c) 0

/-- Consume the optional trailing letter s of a unit token,
case-insensitively. -/
def skipOptS (cs : List Char) : List Char :=
  match cs with
  | [] => []
  | c :: rest => if c.toLower = 's' then rest else c :: rest

/-- Greedy match of the first regex alternative `(\d+)\s*hrs?` at the head of
the character list: a nonempty digit run, whitespace, the letters h r
(case-insensitive) and an optional s.  Returns the captured number and the
rest of the input, or `none` when the alternative does not match here (in
which case the regex engine skips the optional group, consuming nothing). -/
def matchHours (cs : List Char) : Option (Nat × List Char) :=
  let ds := cs.takeWhile Char.isDigit
  if ds.isEmpty then none
  else
    match (cs.dropWhile Char.isDigit).dropWhile isWs with
    | c1 :: c2 :: r => if c1.toLower = 'h' ∧ c2.toLower = 'r' then
        some (digitsToNat ds, skipOptS r) else none
    | _ => none

/-- Greedy match of the second regex alternative `(\d+)\s*mins?` at the head
of the character list. -/
def matchMins (cs : List Char) : Option (Nat × List Char) :=
  let ds := cs.takeWhile Char.isDigit
  if ds.isEmpty then none
  else
    match (cs.dropWhile Char.isDigit).dropWhile isWs with
    | c1 :: c2 :: c3 :: r => if c1.toLower = 'm' ∧ c2.toLower = 'i' ∧ c3.toLower = 'n' then
        some (digitsToNat ds, skipOptS r) else none
    | _ => none

/-- Match of the whole pattern `(?:(\d+)\s*hrs?)?\s*(?:(\d+)\s*mins?)?` at
index 0: the two optional groups around the middle `\s*`.  Returns the two
captured groups (each `none` when its group did not participate) together
with the characters left after the matched prefix. -/
def timeGroups (cs : List Char) : Option Nat × Option Nat × List Char :=
  let step1 : Option Nat × List Char :=
    match matchHours cs with
    | some (v, r) => (some v, r)
    | none => (none, cs)
  let rest1 := step1.2.dropWhile isWs
  match matchMins rest1 with
  | some (v, r) => (step1.1, some v, r)
  | none => (step1.1, none, rest1)

/-- Result of `String.prototype.match` against the unanchored pattern: since
both groups are optional the pattern matches at index 0 of every string, so
the result is never null; the groups are those of the greedy match there. -/
def jsMatchTime (s : String) : Option (Option Nat × Option Nat) :=
  some ((timeGroups s.data).1, (timeGroups s.data).2.1)

/-! ## Time String Codec (web app, src/unnamed/part_004) -/

deriving instance DecidableEq for Except

/-- Embedding of the web app's parseTime: empty (falsy) input returns 0;
otherwise the groups of the regex match give hours and minutes, each
defaulting to 0 when its group is absent.  The null-match throw of the
source is the `Except.error` branch; it is unreachable because the
all-optional pattern always matches, and the NaN check of the source can
never fire because a captured group is a digit run. -/
def parseTime (timeString : String) : Except String Nat :=
  if timeString = "" then .ok 0
  else
    match jsMatchTime timeString with
    | none => .error ("Invalid time format: " ++ timeString)
    | some (g1, g2) =>
      let hrs := g1.getD 0
      let mins := g2.getD 0
      .ok (hrs * 60 + mins)

/-- Fuel-driven digit extraction (structural recursion so that concrete
renderings evaluate in the kernel); the accumulator collects digits least
significant first into the output. -/
def natDigitsCore : Nat → Nat → List Char → List Char
  | 0, _, ds => ds
  | fuel + 1, n, ds =>
    if n < 10 then Nat.digitChar n :: ds
    else natDigitsCore fuel (n / 10) (Nat.digitChar (n % 10) :: ds)

/-- Decimal digits of a natural number, most significant first: the rendering
a JS template literal applies to a non-negative integer number. -/
def natDigits (n : Nat) : List Char := natDigitsCore (n + 1) n []

/-- Decimal string of a natural number. -/
def natToString (n : Nat) : String := ⟨natDigits n⟩

/-- Decimal string of an integer (sign followed by the digits of the
absolute value), the JS rendering of an integral number. -/
def intToString (i : Int) : String :=
  (if i < 0 then "-" else "") ++ natToString i.natAbs

/-- Embedding of formatMinutes: sign of the input, then
`floor(abs/60) " hrs " abs%60 " mins"`.  The source applies Math.round first;
on the integer inputs considered here rounding is the identity, so the
embedding takes an `Int`. -/
def formatMinutes (totalMinutes : Int) : String :=
  (if totalMinutes < 0 then "-" else "")
    ++ natToString (totalMinutes.natAbs / 60) ++ " hrs "
    ++ natToString (totalMinutes.natAbs % 60) ++ " mins"

/-- JS String.prototype.trim: strip whitespace from both ends. -/
def jsTrim (s : String) : String :=
  ⟨((s.data.dropWhile isWs).reverse.dropWhile isWs).reverse⟩

/-- Character-level split on the newline character, the behavior of
JS text.split of a one-character separator: the empty string yields one
empty field, and separators at the ends yield empty fields. -/
def splitNl : List Char → List (List Char)
  | [] => [[]]
  | c :: rest =>
    if c = '\n' then [] :: splitNl rest
    else
      match splitNl rest with
      | l :: ls => (c :: l) :: ls
      | [] => [[c]]

/-- JS text.split over newline, as strings. -/
def splitLines (text : String) : List String :=
  (splitNl text.data).map (fun l => ⟨l⟩)

/-- Embedding of sumTimeStrings: all-whitespace input short-circuits to 0;
otherwise split on newlines, drop blank (falsy after trim) lines, and sum
the lines that parse, skipping (the catch branch) the lines whose parse
throws. -/
def sumTimeStrings (text : String) : Nat :=
  if jsTrim text = "" then 0
  else
    let lines := (splitLines text).filter (fun l => !(jsTrim l = ""))
    lines.foldl (fun totalMin line =>
      match parseTime line with
      | .ok n => totalMin + n
      | .error _ => totalMin) 0

namespace Cli

/-- Embedding of the CLI script's parseTime (the strict variant): the same
pattern anchored as `^...$`, so the match succeeds exactly when the greedy
scan consumes the whole string; on failure it throws the format error.  The
value checks of the source are `hours < 0 || minutes < 0 || minutes > 59`
plus NaN guards; captured groups are digit runs, so only the
`minutes > 59` test can ever fire. -/
def parseTime (timeString : String) : Except String Nat :=
  let g := timeGroups timeString.data
  if g.2.2.isEmpty then
    let hours := (g.1).getD 0
    let minutes := (g.2.1).getD 0
    if minutes > 59 then
      .error ("Invalid time value: " ++ timeString ++ ". Hours must be >= 0, minutes 0-59.")
    else .ok (hours * 60 + minutes)
  else
    .error ("Invalid time format: " ++ timeString)

end Cli

/-- The input shape the round-trip and variant claims quantify over: the
canonical rendering of H hours and M minutes. -/
def hmString (H M : Nat) : String :=
  natToString H ++ " hrs " ++ natToString M ++ " mins"

/-! ## Calendar dates

Dates normalized to midnight are embedded as integer day numbers (days since
1970-01-01).  `civilFromDays`/`civilToEpochDay` convert between day numbers
and proleptic-Gregorian civil dates (the standard era-based algorithm), and
`toDateString` renders the fixed JS format such as "Sat Jan 04 2025". -/

/-- JS getDay: 0 = Sunday .. 6 = Saturday.  Day 0 (1970-01-01) was a
Thursday. -/
def dayOfWeek (d : Int) : Int := (d + 4) % 7

/-- Civil date (year, month, day) of an epoch day number. -/
def civilFromDays (z0 : Int) : Int × Int × Int :=
  let z := z0 + 719468
  let era := Int.fdiv z 146097
  let doe := z - era * 146097
  let yoe := (doe - doe / 1460 + doe / 36524 - doe / 146096) / 365
  let y := yoe + era * 400
  let doy := doe - (365 * yoe + yoe / 4 - yoe / 100)
  let mp := (5 * doy + 2) / 153
  let d := doy - (153 * mp + 2) / 5 + 1
  let m := mp + (if mp < 10 then 3 else -9)
  (y + (if m ≤ 2 then 1 else 0), m, d)

/-- Epoch day number of a civil date (inverse of `civilFromDays`); this is
the embedding of a date input such as new Date("2025-01-01") normalized to
midnight. -/
def civilToEpochDay (y m d : Int) : Int :=
  let y' := y - (if m ≤ 2 then 1 else 0)
  let era := Int.fdiv y' 400
  let yoe := y' - era * 400
  let mp := (m + 9) % 12
  let doy := (153 * mp + 2) / 5 + d - 1
  let doe := yoe * 365 + yoe / 4 - yoe / 100 + doy
  era * 146097 + doe - 719468

/-- Two-digit zero padding of a day of month. -/
def pad2 (n : Int) : String :=
  if n < 10 then "0" ++ intToString n else intToString n

/-- JS Date.prototype.toDateString: weekday name, month name, zero-padded
day of month, year. -/
def toDateString (d : Int) : String :=
  let wd := ["Sun", "Mon", "Tue", "Wed", "Thu", "Fri", "Sat"].getD (dayOfWeek d).toNat ""
  let c := civilFromDays d
  let mn := ["Jan", "Feb", "Mar", "Apr", "May", "Jun", "Jul", "Aug", "Sep", "Oct",
    "Nov", "Dec"].getD (c.2.1 - 1).toNat ""
  wd ++ " " ++ mn ++ " " ++ pad2 c.2.2 ++ " " ++ intToString c.1

/-! ## Work Allocation Engine (src/unnamed/part_004) -/

/-- Embedding of determineStart; the ambient clock (new Date() at local
midnight) is the explicit `today` parameter. -/
def determineStart (billingStart billingEnd : Int) (excludeToday : Bool)
    (today : Int) : Int :=
  if today < billingStart then billingStart
  else if today > billingEnd then billingStart
  else if excludeToday then today + 1 else today

/-- Embedding of the WorkHoursResult record returned by calcWorkHours. -/
structure WorkHoursResult where
  total : Nat
  completed : Nat
  remaining : Int
  billingStart : Int
  billingEnd : Int
  remainingDays : Nat
  workdays : Nat
  perDay : Rat
  skipped : List String
  days : List (Int × Bool)
  hourlyRate : Rat
  totalEarnings : Rat
  completedEarnings : Rat
  remainingEarnings : Rat
  earningsPerDay : Rat
deriving DecidableEq, Repr

/-- The calendar days the loop `for (d = start; d <= billingEnd; d++)`
visits, in order; empty when the end lies before the start. -/
def dayRange (start billingEnd : Int) : List Int :=
  (List.range (billingEnd + 1 - start).toNat).map (fun i => start + i)

/-- One iteration of the day loop of calcWorkHours, accumulating
(workdays, remainingDays, skipped, days). -/
def dayStep (skipSun skipSat : Bool)
    (acc : Nat × Nat × List String × List (Int × Bool)) (d : Int) :
    Nat × Nat × List String × List (Int × Bool) :=
  let day := dayOfWeek d
  if (skipSun && day == 0) || (skipSat && day == 6) then
    (acc.1, acc.2.1 + 1, acc.2.2.1 ++ [toDateString d], acc.2.2.2 ++ [(d, false)])
  else
    (acc.1 + 1, acc.2.1 + 1, acc.2.2.1, acc.2.2.2 ++ [(d, true)])

/-- Body of calcWorkHours after the two parses succeeded. -/
def calcWorkHoursCore (total completed : Nat) (billingStart billingEnd : Int)
    (skipSun skipSat excludeToday : Bool) (today : Int) (hourlyRate : Rat) :
    WorkHoursResult :=
  let remaining : Int := (total : Int) - (completed : Int)
  let start := determineStart billingStart billingEnd excludeToday today
  let acc := (dayRange start billingEnd).foldl (dayStep skipSun skipSat) (0, 0, [], [])
  let workdays := acc.1
  let remainingDays := acc.2.1
  let skipped := acc.2.2.1
  let days := acc.2.2.2
  let perDay : Rat := if workdays > 0 then (remaining : Rat) / (workdays : Rat) else 0
  { total := total
    completed := completed
    remaining := remaining
    billingStart := billingStart
    billingEnd := billingEnd
    remainingDays := remainingDays
    workdays := workdays
    perDay := perDay
    skipped := skipped
    days := days
    hourlyRate := hourlyRate
    totalEarnings := ((total : Rat) / 60) * hourlyRate
    completedEarnings := ((completed : Rat) / 60) * hourlyRate
    remainingEarnings := ((remaining : Rat) / 60) * hourlyRate
    earningsPerDay := (perDay / 60) * hourlyRate }

/-- Embedding of calcWorkHours.  The date-string inputs are embedded as the
day numbers the source obtains from new Date(str) normalized to midnight;
the two time strings are parsed first (total before completed, as in the
source), and a parse throw propagates. -/
def calcWorkHours (totalStr completedStr : String)
    (billingStart billingEnd : Int) (skipSun skipSat excludeToday : Bool)
    (today : Int) (hourlyRate : Rat) : Except String WorkHoursResult :=
  match parseTime totalStr with
  | .error e => .error e
  | .ok total =>
    match parseTime completedStr with
    | .error e => .error e
    | .ok completed =>
      .ok (calcWorkHoursCore total completed billingStart billingEnd
        skipSun skipSat excludeToday today hourlyRate)

/-! ## Merge / Discrepancy Calculator (src/unnamed/part_004)

A JS Record (plain object used as a string-keyed map) is embedded as an
association list in insertion order; property read is first-match lookup,
and the keys of a Record are distinct by construction. -/

/-- Property read on a Record: the value at the first occurrence of the
key, if any. -/
def recordGet {β : Type} (m : List (String × β)) (k : String) : Option β :=
  match m with
  | [] => none
  | (k', v) :: rest => if k' = k then some v else recordGet rest k

/-- Insertion-order iteration of new Set([...]): each key at its first
occurrence. -/
def uniqueKeys (l : List String) : List String :=
  l.foldl (fun acc x => if x ∈ acc then acc else acc ++ [x]) []

/-- One merged entry: manual and wakatime values in hours and their
difference (also in hours). -/
structure MergedEntry where
  manual : Rat
  wakatime : Rat
  difference : Rat
deriving DecidableEq, Repr

/-- Body of the merge loop for one date: a date missing from one side reads
as undefined, which the or-zero guard turns into 0 (the guard also maps an
explicit 0 to 0, so `getD 0` is its exact numeric effect). -/
def mergeEntry (wakaTimeData manualData : List (String × Rat)) (date : String) :
    MergedEntry :=
  let wakatimeHours := (recordGet wakaTimeData date).getD 0
  let manualMinutes := (recordGet manualData date).getD 0
  let manualHours := manualMinutes / 60
  { manual := manualHours
    wakatime := wakatimeHours
    difference := wakatimeHours - manualHours }

/-- Embedding of mergeWakaTimeWithManual: iterate the union of the two key
sets in first-occurrence order, building one merged entry per date. -/
def mergeWakaTimeWithManual (wakaTimeData manualData : List (String × Rat)) :
    List (String × MergedEntry) :=
  let allDates := uniqueKeys (wakaTimeData.map Prod.fst ++ manualData.map Prod.fst)
  allDates.map (fun date => (date, mergeEntry wakaTimeData manualData date))

/-- Embedding of calculateDiscrepancy; the three status strings are the
source's literals. -/
def calculateDiscrepancy (manual wakatime : Rat) : Rat × String :=
  if manual = 0 ∧ wakatime = 0 then (0, "match")
  else if manual = 0 then (100, "over")
  else
    let difference := wakatime - manual
    let percentage := |difference| / manual * 100
    let status := if percentage < 5 then "match"
      else if difference > 0 then "over" else "under"
    (percentage, status)

/-! ## WakaTime data aggregation (src/unnamed/part_002)

One element of the summaries array.  `range_date`/`range_start` embed the
optional `range.date`/`range.start` string fields (`none` = absent), and
`grand_total` embeds `grand_total.total_seconds` (`none` when the
grand_total object is absent or its total_seconds is not a number).  The
category arrays hold (name, total_seconds) pairs; `none` embeds an absent
or non-array field. -/
structure WakaDay where
  range_date : Option String
  range_start : Option String
  grand_total : Option Rat
  languages : Option (List (String × Rat))
  editors : Option (List (String × Rat))
  operating_systems : Option (List (String × Rat))
deriving DecidableEq, Repr

/-- The WakaTimeSummary payload: the day list plus its start/end date
strings (the source's data.start and data.end). -/
structure WakaTimeSummary where
  data : List WakaDay
  start : String
  endStr : String
deriving DecidableEq, Repr

/-- The date key chosen for a day: range.date, else range.start, else the
empty string (the or-chain with falsy fallback). -/
def wakaDateStr (day : WakaDay) : String :=
  let d1 := day.range_date.getD ""
  if d1 = "" then day.range_start.getD "" else d1

/-- Assignment to a Record property: overwrite in place when the key exists,
append otherwise (JS objects keep the original insertion position of an
overwritten key). -/
def upsert {β : Type} (m : List (String × β)) (k : String) (v : β) :
    List (String × β) :=
  match m with
  | [] => [(k, v)]
  | (k', v') :: rest => if k' = k then (k, v) :: rest else (k', v') :: upsert rest k v

/-- One day of the daily-breakdown loop: skip a day with an empty date key;
otherwise assign total_seconds / 3600, or 0 when grand_total is unusable. -/
def breakdownStep (dailyData : List (String × Rat)) (day : WakaDay) :
    List (String × Rat) :=
  let dateStr := wakaDateStr day
  if dateStr = "" then dailyData
  else
    match day.grand_total with
    | some s => upsert dailyData dateStr (s / 3600)
    | none => upsert dailyData dateStr 0

/-- Embedding of calculateDailyBreakdown: one entry per day keyed by its
date string. -/
def calculateDailyBreakdown (data : WakaTimeSummary) : List (String × Rat) :=
  data.data.foldl breakdownStep []

/-- Shared body of aggregateLanguages / aggregateEditors /
aggregateOperatingSystems: sum seconds per category name (a JS Map keeps
first-insertion order; set overwrites in place), take the grand total over
all seen entries, turn each into (name, hours, percent) and sort descending
by hours with the stable Array.prototype.sort. -/
def aggregateBy (select : WakaDay → Option (List (String × Rat)))
    (data : WakaTimeSummary) : List (String × Rat × Rat) :=
  let acc := data.data.foldl (fun (acc : List (String × Rat) × Rat) day =>
    match select day with
    | none => acc
    | some cats => cats.foldl (fun acc2 cat =>
        let current := (recordGet acc2.1 cat.1).getD 0
        (upsert acc2.1 cat.1 (current + cat.2), acc2.2 + cat.2)) acc) ([], 0)
  let totalSeconds := acc.2
  let items := acc.1.map (fun p =>
    (p.1, p.2 / 3600, if totalSeconds > 0 then p.2 / totalSeconds * 100 else 0))
  items.mergeSort (fun a b => b.2.1 ≤ a.2.1)

/-- Embedding of aggregateLanguages. -/
def aggregateLanguages (data : WakaTimeSummary) : List (String × Rat × Rat) :=
  aggregateBy WakaDay.languages data

/-- Embedding of aggregateEditors. -/
def aggregateEditors (data : WakaTimeSummary) : List (String × Rat × Rat) :=
  aggregateBy WakaDay.editors data

/-- Embedding of aggregateOperatingSystems. -/
def aggregateOperatingSystems (data : WakaTimeSummary) : List (String × Rat × Rat) :=
  aggregateBy WakaDay.operating_systems data

/-- Embedding of findMostProductiveDay: Object.entries in insertion order;
empty map gives null, otherwise reduce keeps the entry with strictly larger
value, so the first encountered wins ties. -/
def findMostProductiveDay (dailyData : List (String × Rat)) :
    Option (String × Rat) :=
  match dailyData with
  | [] => none
  | e :: rest => some (rest.foldl (fun mx cur => if cur.2 > mx.2 then cur else mx) e)

/-- Truncation toward zero, the behavior of the JS remainder operand pair
used below (operands are non-negative there, where truncation and floor
agree). -/
def ratTrunc (q : Rat) : Int := if 0 ≤ q then q.floor else q.ceil

/-- JS remainder a % b for numbers: a - b * trunc(a / b). -/
def jsMod (a b : Rat) : Rat := a - b * (ratTrunc (a / b) : Rat)

/-- Embedding of the WakaTimeResult record. -/
structure WakaTimeResult where
  projectName : String
  totalSeconds : Rat
  totalHours : Int
  totalMinutes : Int
  digitalTime : String
  startDate : String
  endDate : String
  daysWithData : Nat
  averageHoursPerDay : Rat
  mostProductiveDay : Option (String × Rat)
  languages : List (String × Rat × Rat)
  editors : List (String × Rat × Rat)
  operatingSystems : List (String × Rat × Rat)
deriving DecidableEq, Repr

/-- One day of the totals loop of parseWakaTimeResponse: a day contributes
to totalSeconds and daysWithData only when grand_total.total_seconds is a
number strictly greater than 0.  The structure-validation throw of the
source cannot fire in the typed embedding (data.data is always an array),
so parseWakaTimeResponse is total here. -/
def totalsStep (acc : Rat × Nat) (day : WakaDay) : Rat × Nat :=
  match day.grand_total with
  | some daySeconds => if daySeconds > 0 then (acc.1 + daySeconds, acc.2 + 1) else acc
  | none => acc

/-- Embedding of parseWakaTimeResponse (see the doc comment above
`totalsStep` for the per-day accumulation). -/
def parseWakaTimeResponse (data : WakaTimeSummary) (projectName : String) :
    WakaTimeResult :=
  let totals := data.data.foldl totalsStep (0, 0)
  let totalSeconds := totals.1
  let daysWithData := totals.2
  let totalHours := (totalSeconds / 3600).floor
  let totalMinutes := (jsMod totalSeconds 3600 / 60).floor
  let dailyData := calculateDailyBreakdown data
  let averageHoursPerDay : Rat :=
    if daysWithData > 0 then totalSeconds / 3600 / (daysWithData : Rat) else 0
  { projectName := projectName
    totalSeconds := totalSeconds
    totalHours := totalHours
    totalMinutes := totalMinutes
    digitalTime := intToString totalHours ++ "h " ++ intToString totalMinutes ++ "m"
    startDate := data.start
    endDate := data.endStr
    daysWithData := daysWithData
    averageHoursPerDay := averageHoursPerDay
    mostProductiveDay := findMostProductiveDay dailyData
    languages := aggregateLanguages data
    editors := aggregateEditors data
    operatingSystems := aggregateOperatingSystems data }

/-! ## Lemmas: decimal rendering and the time-string parser -/

theorem natDigitsCore_spec (n : Nat) : ∀ fuel ds, n < fuel →
    natDigitsCore fuel n ds = natDigits n ++ ds := by
  induction n using Nat.strong_induction_on with
  | _ n ih =>
    intro fuel ds hfuel
    obtain ⟨f, rfl⟩ : ∃ f, fuel = f + 1 := ⟨fuel - 1, by omega⟩
    by_cases h10 : n < 10
    · simp [natDigitsCore, natDigits, h10]
    · have hdiv : n / 10 < n := Nat.div_lt_self (by omega) (by omega)
      have hL : natDigitsCore (f + 1) n ds
          = natDigitsCore f (n / 10) (Nat.digitChar (n % 10) :: ds) := by
        simp [natDigitsCore, h10]
      have hR : natDigits n = natDigits (n / 10) ++ [Nat.digitChar (n % 10)] := by
        have h1 : natDigits n = natDigitsCore n (n / 10) [Nat.digitChar (n % 10)] := by
          simp [natDigits, natDigitsCore, h10]
        rw [h1, ih (n / 10) hdiv n _ (by omega)]
      rw [hL, ih (n / 10) hdiv f _ (by omega), hR]
      simp

theorem natDigits_rec (n : Nat) : natDigits n =
    if n < 10 then [Nat.digitChar n]
    else natDigits (n / 10) ++ [Nat.digitChar (n % 10)] := by
  by_cases h10 : n < 10
  · simp [natDigits, natDigitsCore, h10]
  · have hdiv : n / 10 < n := Nat.div_lt_self (by omega) (by omega)
    have h1 : natDigits n = natDigitsCore n (n / 10) [Nat.digitChar (n % 10)] := by
      simp [natDigits, natDigitsCore, h10]
    rw [h1, natDigitsCore_spec (n / 10) n _ (by omega), if_neg h10]

theorem digitChar_isDigit {d : Nat} (h : d < 10) : (Nat.digitChar d).isDigit = true := by
  interval_cases d <;> decide

theorem digitVal_digitChar {d : Nat} (h : d < 10) : digitVal (Nat.digitChar d) = d := by
  interval_cases d <;> decide

theorem natDigits_ne_nil (n : Nat) : natDigits n ≠ [] := by
  rw [natDigits_rec]
  split <;> simp

theorem natDigits_isDigit (n : Nat) : ∀ c ∈ natDigits n, c.isDigit = true := by
  induction n using Nat.strong_induction_on with
  | _ n ih =>
    by_cases h10 : n < 10
    · rw [natDigits_rec, if_pos h10]
      intro c hc
      simp only [List.mem_singleton] at hc
      subst hc
      exact digitChar_isDigit h10
    · rw [natDigits_rec, if_neg h10]
      intro c hc
      rcases List.mem_append.mp hc with h | h
      · exact ih (n / 10) (Nat.div_lt_self (by omega) (by omega)) c h
      · simp only [List.mem_singleton] at h
        subst h
        exact digitChar_isDigit (Nat.mod_lt _ (by omega))

theorem digitsToNat_natDigits (n : Nat) : digitsToNat (natDigits n) = n := by
  induction n using Nat.strong_induction_on with
  | _ n ih =>
    by_cases h10 : n < 10
    · rw [natDigits_rec, if_pos h10]
      simp [digitsToNat, digitVal_digitChar h10]
    · have hdiv : n / 10 < n := Nat.div_lt_self (by omega) (by omega)
      rw [natDigits_rec, if_neg h10]
      have hprev := ih (n / 10) hdiv
      simp only [digitsToNat, List.foldl_append] at hprev ⊢
      rw [hprev]
      simp [digitVal_digitChar (Nat.mod_lt n (by omega) : n % 10 < 10)]
      omega

theorem takeWhile_append_eq {p : Char → Bool} {xs : List Char} {y : Char} {ys : List Char}
    (hxs : ∀ c ∈ xs, p c = true) (hy : p y = false) :
    (xs ++ y :: ys).takeWhile p = xs := by
  induction xs with
  | nil => simp [List.takeWhile_cons, hy]
  | cons x xs ih =>
    have hx : p x = true := hxs x (by simp)
    simp [List.cons_append, List.takeWhile_cons, hx,
      ih (fun c hc => hxs c (by simp [hc]))]

theorem dropWhile_append_eq {p : Char → Bool} {xs : List Char} {y : Char} {ys : List Char}
    (hxs : ∀ c ∈ xs, p c = true) (hy : p y = false) :
    (xs ++ y :: ys).dropWhile p = y :: ys := by
  induction xs with
  | nil => simp [List.dropWhile_cons, hy]
  | cons x xs ih =>
    have hx : p x = true := hxs x (by simp)
    simp only [List.cons_append, List.dropWhile_cons, hx]
    exact ih (fun c hc => hxs c (by simp [hc]))

theorem isEmpty_false_of_ne_nil {l : List Char} (h : l ≠ []) : l.isEmpty = false := by
  cases l with
  | nil => exact absurd rfl h
  | cons x xs => rfl

theorem isWs_eq_false_of_isDigit {c : Char} (h : c.isDigit = true) : isWs c = false := by
  have h1 : c ≠ ' ' := fun hc => absurd h (by rw [hc]; decide)
  have h2 : c ≠ '\t' := fun hc => absurd h (by rw [hc]; decide)
  have h3 : c ≠ '\n' := fun hc => absurd h (by rw [hc]; decide)
  have h4 : c ≠ '\r' := fun hc => absurd h (by rw [hc]; decide)
  simp [isWs, h1, h2, h3, h4]

theorem matchHours_hm (H : Nat) (tail : List Char) :
    matchHours (natDigits H ++ (' ' :: 'h' :: 'r' :: 's' :: ' ' :: tail)) =
      some (H, ' ' :: tail) := by
  have hH := natDigits_isDigit H
  have htake : (natDigits H ++ (' ' :: 'h' :: 'r' :: 's' :: ' ' :: tail)).takeWhile Char.isDigit
      = natDigits H := takeWhile_append_eq hH (by decide)
  have hdrop : (natDigits H ++ (' ' :: 'h' :: 'r' :: 's' :: ' ' :: tail)).dropWhile Char.isDigit
      = ' ' :: 'h' :: 'r' :: 's' :: ' ' :: tail := dropWhile_append_eq hH (by decide)
  have hws : List.dropWhile isWs (' ' :: 'h' :: 'r' :: 's' :: ' ' :: tail)
      = 'h' :: 'r' :: 's' :: ' ' :: tail := by
    simp [List.dropWhile_cons, show isWs ' ' = true from by decide,
      show isWs 'h' = false from by decide]
  simp only [matchHours, htake, hdrop, hws,
    isEmpty_false_of_ne_nil (natDigits_ne_nil H), Bool.false_eq_true, if_false]
  simp [skipOptS, digitsToNat_natDigits, show ('h').toLower = 'h' from by decide,
    show ('r').toLower = 'r' from by decide, show ('s').toLower = 's' from by decide]

theorem matchMins_hm (M : Nat) :
    matchMins (natDigits M ++ (' ' :: 'm' :: 'i' :: 'n' :: 's' :: [])) = some (M, []) := by
  have hM := natDigits_isDigit M
  have htake : (natDigits M ++ (' ' :: 'm' :: 'i' :: 'n' :: 's' :: [])).takeWhile Char.isDigit
      = natDigits M := takeWhile_append_eq hM (by decide)
  have hdrop : (natDigits M ++ (' ' :: 'm' :: 'i' :: 'n' :: 's' :: [])).dropWhile Char.isDigit
      = ' ' :: 'm' :: 'i' :: 'n' :: 's' :: [] := dropWhile_append_eq hM (by decide)
  have hws : List.dropWhile isWs (' ' :: 'm' :: 'i' :: 'n' :: 's' :: [])
      = 'm' :: 'i' :: 'n' :: 's' :: [] := by
    simp [List.dropWhile_cons, show isWs ' ' = true from by decide,
      show isWs 'm' = false from by decide]
  simp only [matchMins, htake, hdrop, hws,
    isEmpty_false_of_ne_nil (natDigits_ne_nil M), Bool.false_eq_true, if_false]
  simp [skipOptS, digitsToNat_natDigits, show ('m').toLower = 'm' from by decide,
    show ('i').toLower = 'i' from by decide, show ('n').toLower = 'n' from by decide,
    show ('s').toLower = 's' from by decide]

theorem timeGroups_hm (H M : Nat) :
    timeGroups (natDigits H
      ++ (' ' :: 'h' :: 'r' :: 's' :: ' '
        :: (natDigits M ++ (' ' :: 'm' :: 'i' :: 'n' :: 's' :: []))))
      = (some H, some M, []) := by
  have h1 := matchHours_hm H (natDigits M ++ (' ' :: 'm' :: 'i' :: 'n' :: 's' :: []))
  have hdropM : List.dropWhile isWs
      (' ' :: (natDigits M ++ (' ' :: 'm' :: 'i' :: 'n' :: 's' :: [])))
      = natDigits M ++ (' ' :: 'm' :: 'i' :: 'n' :: 's' :: []) := by
    rw [List.dropWhile_cons]
    simp only [show isWs ' ' = true from by decide, if_true]
    cases hcase : natDigits M with
    | nil => exact absurd hcase (natDigits_ne_nil M)
    | cons c cs =>
      have hc : c.isDigit = true := by
        have := natDigits_isDigit M c
        rw [hcase] at this
        exact this (by simp)
      rw [List.cons_append, List.dropWhile_cons]
      simp [isWs_eq_false_of_isDigit hc]
  simp only [timeGroups, h1, hdropM, matchMins_hm M]

theorem hmString_data (H M : Nat) : (hmString H M).data =
    natDigits H
      ++ (' ' :: 'h' :: 'r' :: 's' :: ' '
        :: (natDigits M ++ (' ' :: 'm' :: 'i' :: 'n' :: 's' :: []))) := by
  simp only [hmString, natToString, String.data_append]
  simp

theorem hmString_ne_empty (H M : Nat) : hmString H M ≠ "" := by
  intro h
  have hd : (hmString H M).data = [] := by rw [h]
  rw [hmString_data] at hd
  exact natDigits_ne_nil H (List.append_eq_nil.mp hd).1

theorem timeGroups_hmString (H M : Nat) :
    timeGroups (hmString H M).data = (some H, some M, []) := by
  rw [hmString_data]
  exact timeGroups_hm H M

theorem parseTime_hmString (H M : Nat) :
    parseTime (hmString H M) = .ok (H * 60 + M) := by
  simp only [parseTime, hmString_ne_empty H M, if_false, jsMatchTime,
    timeGroups_hmString]
  rfl

theorem formatMinutes_eq_hmString (m : Nat) :
    formatMinutes (m : Int) = hmString (m / 60) (m % 60) := by
  apply String.ext
  have hna : (m : Int).natAbs = m := Int.natAbs_ofNat m
  simp only [formatMinutes, hmString, if_neg (by omega : ¬ ((m : Int) < 0)), hna,
    String.data_append]
  simp

theorem parseTime_ok (s : String) : ∃ n, parseTime s = .ok n := by
  by_cases h : s = ""
  · exact ⟨0, by simp [parseTime, h]⟩
  · refine ⟨(timeGroups s.data).1.getD 0 * 60 + (timeGroups s.data).2.1.getD 0, ?_⟩
    simp only [parseTime, h, if_false, jsMatchTime]

/-! ## Claim C3 -/

/-- C3: for every non-negative integer number of minutes m, parsing the
formatted string round-trips: parseTime (formatMinutes m) returns m. -/
theorem c3_parse_format_roundtrip (m : Nat) :
    parseTime (formatMinutes (m : Int)) = .ok m := by
  rw [formatMinutes_eq_hmString m, parseTime_hmString]
  congr 1
  omega

/-! ## Claim C6 -/

/-- C6 counterexample: on the input "garbage", which contains no hrs or mins
token, parseTime does not fail: it returns the number 0. -/
theorem c6_counterexample : parseTime "garbage" = .ok 0 := by decide

/-- C6 (amended): parseTime never fails with a FormatError: the all-optional
regex matches every string, so every input parses to a number, and an input
with no hrs or mins token such as "garbage" parses to 0. -/
theorem c6_parse_never_fails :
    (∀ s, ∃ n, parseTime s = .ok n) ∧ parseTime "garbage" = .ok 0 :=
  ⟨parseTime_ok, by decide⟩

/-! ## Claim C7 -/

/-- C7: the two parse variants differ exactly as documented: the lenient
web-app parseTime accepts a minutes field greater than 59 without
normalization and returns 60*H + M on the input "H hrs M mins", while the
CLI parseTime throws whenever the parsed minutes value exceeds 59 (the
negative-value check can never fire on digit captures). -/
theorem c7_parse_variants (H M : Nat) :
    parseTime (hmString H M) = .ok (60 * H + M) ∧
    (59 < M → ∃ e, Cli.parseTime (hmString H M) = .error e) := by
  constructor
  · rw [parseTime_hmString]
    congr 1
    omega
  · intro h59
    refine ⟨"Invalid time value: " ++ hmString H M ++ ". Hours must be >= 0, minutes 0-59.", ?_⟩
    simp only [Cli.parseTime, timeGroups_hmString]
    simp [h59]

/-- C7 witness at H = 1, M = 75: the lenient parser returns 135 on
"1 hrs 75 mins", the strict parser rejects it. -/
theorem c7_witness :
    parseTime "1 hrs 75 mins" = .ok 135 ∧
    (∃ e, Cli.parseTime "1 hrs 75 mins" = .error e) := by
  have h := c7_parse_variants 1 75
  have hs : hmString 1 75 = "1 hrs 75 mins" := by decide
  rw [hs] at h
  exact ⟨by simpa using h.1, h.2 (by omega)⟩

/-! ## Lemmas: the allocation engine -/

theorem determineStart_rev {billingStart billingEnd : Int} (h : billingEnd < billingStart)
    (excludeToday : Bool) (today : Int) :
    determineStart billingStart billingEnd excludeToday today = billingStart := by
  unfold determineStart
  split_ifs <;> omega

theorem dayRange_nil {start billingEnd : Int} (h : billingEnd < start) :
    dayRange start billingEnd = [] := by
  unfold dayRange
  rw [show (billingEnd + 1 - start).toNat = 0 from by omega]
  rfl

/-! ## Claim C5 -/

/-- C5: whenever billingEnd lies strictly before billingStart, calcWorkHours
does not throw, and the result has remainingDays = 0 and workdays = 0: the
day loop performs zero iterations. -/
theorem c5_reversed_range (totalStr completedStr : String) (billingStart billingEnd : Int)
    (skipSun skipSat excludeToday : Bool) (today : Int) (hourlyRate : Rat)
    (hrev : billingEnd < billingStart) :
    (∃ r, calcWorkHours totalStr completedStr billingStart billingEnd skipSun skipSat
        excludeToday today hourlyRate = .ok r) ∧
    ∀ r, calcWorkHours totalStr completedStr billingStart billingEnd skipSun skipSat
        excludeToday today hourlyRate = .ok r → r.remainingDays = 0 ∧ r.workdays = 0 := by
  obtain ⟨t, ht⟩ := parseTime_ok totalStr
  obtain ⟨c, hc⟩ := parseTime_ok completedStr
  constructor
  · refine ⟨calcWorkHoursCore t c billingStart billingEnd skipSun skipSat
      excludeToday today hourlyRate, ?_⟩
    simp only [calcWorkHours, ht, hc]
  · intro r hr
    have hcore : r = calcWorkHoursCore t c billingStart billingEnd skipSun skipSat
        excludeToday today hourlyRate := by
      simp only [calcWorkHours, ht, hc, Except.ok.injEq] at hr
      exact hr.symm
    subst hcore
    simp only [calcWorkHoursCore, determineStart_rev hrev, dayRange_nil hrev,
      List.foldl_nil]
    simp

/-- C5 witness at the concrete reversed range billingStart = 1,
billingEnd = 0. -/
theorem c5_witness :
    (∃ r, calcWorkHours "" "" 1 0 false false false 0 0 = .ok r) ∧
    ∀ r, calcWorkHours "" "" 1 0 false false false 0 0 = .ok r →
      r.remainingDays = 0 ∧ r.workdays = 0 :=
  c5_reversed_range "" "" 1 0 false false false 0 0 (by norm_num)

/-! ## Claim C4 -/

/-- C4: calcWorkHours never throws, and whenever the counted number of
workdays is 0 the returned perDay is exactly 0 (the guarded division is
never taken). -/
theorem c4_zero_workdays (totalStr completedStr : String) (billingStart billingEnd : Int)
    (skipSun skipSat excludeToday : Bool) (today : Int) (hourlyRate : Rat) :
    (∃ r, calcWorkHours totalStr completedStr billingStart billingEnd skipSun skipSat
        excludeToday today hourlyRate = .ok r) ∧
    ∀ r, calcWorkHours totalStr completedStr billingStart billingEnd skipSun skipSat
        excludeToday today hourlyRate = .ok r → r.workdays = 0 → r.perDay = 0 := by
  obtain ⟨t, ht⟩ := parseTime_ok totalStr
  obtain ⟨c, hc⟩ := parseTime_ok completedStr
  constructor
  · refine ⟨calcWorkHoursCore t c billingStart billingEnd skipSun skipSat
      excludeToday today hourlyRate, ?_⟩
    simp only [calcWorkHours, ht, hc]
  · intro r hr h0
    have hcore : r = calcWorkHoursCore t c billingStart billingEnd skipSun skipSat
        excludeToday today hourlyRate := by
      simp only [calcWorkHours, ht, hc, Except.ok.injEq] at hr
      exact hr.symm
    subst hcore
    simp only [calcWorkHoursCore] at h0 ⊢
    simp only [h0]
    simp

/-- C4 witness at a concrete input whose iterated range is empty, so that
workdays = 0 and perDay = 0. -/
theorem c4_witness :
    (∃ r, calcWorkHours "" "" 1 0 false false false 0 0 = .ok r) ∧
    ({ total := 0, completed := 0, remaining := 0, billingStart := 1, billingEnd := 0,
       remainingDays := 0, workdays := 0, perDay := 0, skipped := [], days := [],
       hourlyRate := 0, totalEarnings := 0, completedEarnings := 0,
       remainingEarnings := 0, earningsPerDay := 0 } : WorkHoursResult).perDay = 0 := by
  refine ⟨(c4_zero_workdays "" "" 1 0 false false false 0 0).1, ?_⟩
  have hr : calcWorkHours "" "" 1 0 false false false 0 0 =
      .ok { total := 0, completed := 0, remaining := 0, billingStart := 1, billingEnd := 0,
            remainingDays := 0, workdays := 0, perDay := 0, skipped := [], days := [],
            hourlyRate := 0, totalEarnings := 0, completedEarnings := 0,
            remainingEarnings := 0, earningsPerDay := 0 } := by
    have h1 : parseTime "" = .ok 0 := by decide
    have hd : determineStart 1 0 false 0 = 1 := by decide
    have hn : dayRange 1 0 = [] := by decide
    simp only [calcWorkHours, h1, calcWorkHoursCore, hd, hn, List.foldl_nil]
    norm_num
  exact (c4_zero_workdays "" "" 1 0 false false false 0 0).2 _ hr rfl

/-! ## Claim C1 -/

/-- C1: for EVERY billing period whose end lies strictly before "today"
(and any excludeToday), determineStart returns billingStart, so calcWorkHours
re-evaluates the completed period in full from billingStart; and on
total = "100 hrs 0 mins" (6000 minutes), completed = 0,
start = Wednesday 2025-01-01, end = Tuesday 2025-01-07, skipSunday and
skipSaturday set, excludeToday clear, evaluated at any clock value past the
end date, the result has remainingDays = 7, excluded days
Saturday 2025-01-04 and Sunday 2025-01-05, workdays = 5 and
perDay = 1200 minutes. -/
theorem c1_past_period :
    (∀ (billingStart billingEnd : Int) (excludeToday : Bool) (today : Int),
      billingEnd < today →
      determineStart billingStart billingEnd excludeToday today = billingStart) ∧
    ∀ today : Int, civilToEpochDay 2025 1 7 < today →
      calcWorkHours "100 hrs 0 mins" "0 hrs 0 mins" (civilToEpochDay 2025 1 1)
        (civilToEpochDay 2025 1 7) true true false today 0 =
        .ok { total := 6000, completed := 0, remaining := 6000,
              billingStart := 20089, billingEnd := 20095,
              remainingDays := 7, workdays := 5, perDay := 1200,
              skipped := ["Sat Jan 04 2025", "Sun Jan 05 2025"],
              days := [(20089, true), (20090, true), (20091, true), (20092, false),
                (20093, false), (20094, true), (20095, true)],
              hourlyRate := 0, totalEarnings := 0, completedEarnings := 0,
              remainingEarnings := 0, earningsPerDay := 0 } := by
  have hgen : ∀ (billingStart billingEnd : Int) (excludeToday : Bool) (today : Int),
      billingEnd < today →
      determineStart billingStart billingEnd excludeToday today = billingStart := by
    intro billingStart billingEnd excludeToday today h
    unfold determineStart
    split_ifs <;> omega
  refine ⟨hgen, ?_⟩
  intro today h
  have hs : civilToEpochDay 2025 1 1 = 20089 := by decide
  have he : civilToEpochDay 2025 1 7 = 20095 := by decide
  rw [he] at h
  rw [hs, he]
  have hd : determineStart 20089 20095 false today = 20089 := hgen _ _ _ _ h
  have h1 : parseTime "100 hrs 0 mins" = .ok 6000 := by decide
  have h2 : parseTime "0 hrs 0 mins" = .ok 0 := by decide
  have hacc : (dayRange 20089 20095).foldl (dayStep true true) (0, 0, [], []) =
      (5, 7, ["Sat Jan 04 2025", "Sun Jan 05 2025"],
        [(20089, true), (20090, true), (20091, true), (20092, false),
         (20093, false), (20094, true), (20095, true)]) := by decide
  simp only [calcWorkHours, h1, h2, calcWorkHoursCore, hd, hacc]
  norm_num

/-- C1 witness: the policy clause at the concrete period (start 5, end 3)
with excludeToday set and clock 4 past the end, and the scenario at the
concrete clock value 20096 (2025-01-08), one day past the billing end. -/
theorem c1_witness :
    determineStart 5 3 true 4 = 5 ∧
    calcWorkHours "100 hrs 0 mins" "0 hrs 0 mins" (civilToEpochDay 2025 1 1)
      (civilToEpochDay 2025 1 7) true true false 20096 0 =
      .ok { total := 6000, completed := 0, remaining := 6000,
            billingStart := 20089, billingEnd := 20095,
            remainingDays := 7, workdays := 5, perDay := 1200,
            skipped := ["Sat Jan 04 2025", "Sun Jan 05 2025"],
            days := [(20089, true), (20090, true), (20091, true), (20092, false),
              (20093, false), (20094, true), (20095, true)],
            hourlyRate := 0, totalEarnings := 0, completedEarnings := 0,
            remainingEarnings := 0, earningsPerDay := 0 } :=
  ⟨c1_past_period.1 5 3 true 4 (by norm_num), c1_past_period.2 20096 (by decide)⟩

/-! ## Claim C8 -/

/-- C8: sumTimeStrings splits its input into lines, drops blank lines,
parses each remaining line independently and sums, skipping any line whose
parse throws; empty input yields 0, and the scenario with an unparseable
middle line sums to 270. -/
theorem c8_sum_lines :
    sumTimeStrings "3 hrs 0 mins\ngarbage\n1 hrs 30 mins" = 270 ∧
    sumTimeStrings "" = 0 ∧
    ∀ text, ¬ jsTrim text = "" →
      sumTimeStrings text = ((splitLines text).filter (fun l => !(jsTrim l = ""))).foldl
        (fun totalMin line =>
          match parseTime line with
          | .ok n => totalMin + n
          | .error _ => totalMin) 0 := by
  refine ⟨by decide, by decide, ?_⟩
  intro text htext
  simp only [sumTimeStrings, htext, if_false]

/-- C8 witness at the concrete input "5 mins", whose trimmed text is
nonempty. -/
theorem c8_witness :
    sumTimeStrings "5 mins" = ((splitLines "5 mins").filter (fun l => !(jsTrim l = ""))).foldl
      (fun totalMin line =>
        match parseTime line with
        | .ok n => totalMin + n
        | .error _ => totalMin) 0 :=
  c8_sum_lines.2.2 "5 mins" (by decide)

/-! ## Lemmas: Records and key sets -/

theorem recordGet_keysMap {β : Type} (ks : List String) (f : String → β) (d : String) :
    recordGet (ks.map (fun k => (k, f k))) d = if d ∈ ks then some (f d) else none := by
  induction ks with
  | nil => simp [recordGet]
  | cons k ks ih =>
    simp only [List.map_cons, recordGet]
    by_cases hk : k = d
    · subst hk
      simp [List.mem_cons]
    · rw [if_neg hk, ih]
      have hdk : ¬ d = k := fun hh => hk hh.symm
      simp [List.mem_cons, hdk]

theorem mem_uniqueKeys_aux (x : String) : ∀ (l acc : List String),
    (x ∈ l.foldl (fun acc x => if x ∈ acc then acc else acc ++ [x]) acc) ↔
      (x ∈ acc ∨ x ∈ l) := by
  intro l
  induction l with
  | nil => simp
  | cons y l ih =>
    intro acc
    simp only [List.foldl_cons]
    rw [ih]
    by_cases hy : y ∈ acc
    · rw [if_pos hy]
      constructor
      · rintro (h | h)
        · exact Or.inl h
        · exact Or.inr (List.mem_cons_of_mem y h)
      · rintro (h | h)
        · exact Or.inl h
        · rcases List.mem_cons.mp h with rfl | h2
          · exact Or.inl hy
          · exact Or.inr h2
    · rw [if_neg hy]
      simp only [List.mem_append, List.mem_singleton, List.mem_cons]
      tauto

theorem mem_uniqueKeys (l : List String) (x : String) : x ∈ uniqueKeys l ↔ x ∈ l := by
  unfold uniqueKeys
  rw [mem_uniqueKeys_aux]
  simp

/-! ## Claim C2 -/

/-- Shared evaluation of the merge scenario
merge(wakaTime = 2025-01-01 at 2.5 h, manual = 2025-01-01 at 90 min and
2025-01-02 at 30 min): the difference fields hold 1 and -0.5 HOURS. -/
theorem mergeScenario_eq :
    mergeWakaTimeWithManual [("2025-01-01", 5/2)] [("2025-01-01", 90), ("2025-01-02", 30)] =
      [("2025-01-01", { manual := 3/2, wakatime := 5/2, difference := 1 }),
       ("2025-01-02", { manual := 1/2, wakatime := 0, difference := -(1/2) })] := by
  have hkeys : uniqueKeys ["2025-01-01", "2025-01-01", "2025-01-02"] =
      ["2025-01-01", "2025-01-02"] := by decide
  have hw1 : recordGet [("2025-01-01", (5/2 : Rat))] "2025-01-01" = some (5/2) := rfl
  have hw2 : recordGet [("2025-01-01", (5/2 : Rat))] "2025-01-02" = none := rfl
  have hm1 : recordGet [("2025-01-01", (90 : Rat)), ("2025-01-02", 30)] "2025-01-01"
      = some 90 := rfl
  have hm2 : recordGet [("2025-01-01", (90 : Rat)), ("2025-01-02", 30)] "2025-01-02"
      = some 30 := rfl
  simp only [mergeWakaTimeWithManual, mergeEntry, List.map_cons, List.map_nil,
    List.cons_append, List.nil_append, hkeys, hw1, hw2, hm1, hm2,
    Option.getD_some, Option.getD_none]
  norm_num

/-- C2 counterexample: in the scenario, the 2025-01-01 entry's difference
field holds 1 (an hours value), while the claimed formula
externalHoursByDate*60 - manualMinutesByDate evaluates to 60 there; the two
are different. -/
theorem c2_counterexample :
    recordGet (mergeWakaTimeWithManual [("2025-01-01", 5/2)]
      [("2025-01-01", 90), ("2025-01-02", 30)]) "2025-01-01" =
      some { manual := 3/2, wakatime := 5/2, difference := 1 } ∧
    ¬ ((1 : Rat) = (5/2) * 60 - 90) := by
  constructor
  · rw [mergeScenario_eq]
    simp [recordGet]
  · norm_num

/-- C2 (amended): mergeWakaTimeWithManual returns a map whose key set is
exactly the union of the two input key sets; a date missing from one side
contributes zero for that side; and the difference field is measured in
HOURS: difference = externalHours - manualMinutes/60 (i.e. the claimed
minutes quantity divided by 60), so the scenario entries carry manual 1.5 h,
external 2.5 h, difference 1 h and manual 0.5 h, external 0 h,
difference -0.5 h. -/
theorem c2_merge_union_difference :
    (∀ (wakaTimeData manualData : List (String × Rat)) (date : String),
      ((recordGet (mergeWakaTimeWithManual wakaTimeData manualData) date).isSome = true ↔
        (date ∈ wakaTimeData.map Prod.fst ∨ date ∈ manualData.map Prod.fst)) ∧
      ∀ e, recordGet (mergeWakaTimeWithManual wakaTimeData manualData) date = some e →
        e.manual = (recordGet manualData date).getD 0 / 60 ∧
        e.wakatime = (recordGet wakaTimeData date).getD 0 ∧
        e.difference = (recordGet wakaTimeData date).getD 0
          - (recordGet manualData date).getD 0 / 60) ∧
    mergeWakaTimeWithManual [("2025-01-01", 5/2)] [("2025-01-01", 90), ("2025-01-02", 30)] =
      [("2025-01-01", { manual := 3/2, wakatime := 5/2, difference := 1 }),
       ("2025-01-02", { manual := 1/2, wakatime := 0, difference := -(1/2) })] := by
  refine ⟨?_, mergeScenario_eq⟩
  intro w m d
  have hget : recordGet (mergeWakaTimeWithManual w m) d =
      if d ∈ uniqueKeys (w.map Prod.fst ++ m.map Prod.fst)
      then some (mergeEntry w m d) else none := by
    unfold mergeWakaTimeWithManual
    exact recordGet_keysMap _ _ d
  have hmem : d ∈ uniqueKeys (w.map Prod.fst ++ m.map Prod.fst) ↔
      (d ∈ w.map Prod.fst ∨ d ∈ m.map Prod.fst) := by
    rw [mem_uniqueKeys]
    exact List.mem_append
  constructor
  · rw [hget]
    by_cases hd : d ∈ uniqueKeys (w.map Prod.fst ++ m.map Prod.fst)
    · rw [if_pos hd]
      simp only [Option.isSome_some, true_iff]
      exact hmem.mp hd
    · rw [if_neg hd]
      rw [hmem] at hd
      simp only [Option.isSome_none, Bool.false_eq_true, false_iff]
      exact hd
  · intro e he
    rw [hget] at he
    by_cases hd : d ∈ uniqueKeys (w.map Prod.fst ++ m.map Prod.fst)
    · rw [if_pos hd] at he
      injection he with he'
      subst he'
      refine ⟨?_, ?_, ?_⟩ <;> simp [mergeEntry]
    · rw [if_neg hd] at he
      exact absurd he (by simp)

/-- C2 witness instantiating the amended theorem's entry characterization at
the scenario's 2025-01-01 entry. -/
theorem c2_witness :
    ({ manual := 3/2, wakatime := 5/2, difference := 1 } : MergedEntry).manual =
        (recordGet [("2025-01-01", (90 : Rat)), ("2025-01-02", 30)] "2025-01-01").getD 0 / 60 ∧
    ({ manual := 3/2, wakatime := 5/2, difference := 1 } : MergedEntry).wakatime =
        (recordGet [("2025-01-01", (5/2 : Rat))] "2025-01-01").getD 0 ∧
    ({ manual := 3/2, wakatime := 5/2, difference := 1 } : MergedEntry).difference =
        (recordGet [("2025-01-01", (5/2 : Rat))] "2025-01-01").getD 0
          - (recordGet [("2025-01-01", (90 : Rat)), ("2025-01-02", 30)] "2025-01-01").getD 0 / 60 :=
  (c2_merge_union_difference.1 [("2025-01-01", 5/2)]
    [("2025-01-01", 90), ("2025-01-02", 30)] "2025-01-01").2 _
    (by rw [mergeScenario_eq]; simp [recordGet])

/-! ## Claim C9 -/

/-- C9: calculateDiscrepancy returns (0, "match") when both arguments are 0;
returns the fixed sentinel (100, "over") with no division performed when
manual is 0 and wakatime is nonzero; and otherwise the percentage is
abs(wakatime - manual) / manual * 100 and the status is "match" exactly when
that percentage is below 5, else "over" when wakatime exceeds manual and
"under" otherwise. -/
theorem c9_classify (manual wakatime : Rat) :
    (manual = 0 ∧ wakatime = 0 → calculateDiscrepancy manual wakatime = (0, "match")) ∧
    (manual = 0 ∧ wakatime ≠ 0 → calculateDiscrepancy manual wakatime = (100, "over")) ∧
    (manual ≠ 0 →
      (calculateDiscrepancy manual wakatime).1 = |wakatime - manual| / manual * 100 ∧
      ((calculateDiscrepancy manual wakatime).2 = "match" ↔
        |wakatime - manual| / manual * 100 < 5) ∧
      (¬ |wakatime - manual| / manual * 100 < 5 →
        (calculateDiscrepancy manual wakatime).2 =
          if manual < wakatime then "over" else "under")) := by
  refine ⟨?_, ?_, ?_⟩
  · rintro ⟨h1, h2⟩
    simp [calculateDiscrepancy, h1, h2]
  · rintro ⟨h1, h2⟩
    simp [calculateDiscrepancy, h1, h2]
  · intro hm
    simp only [calculateDiscrepancy, hm, false_and, if_false]
    refine ⟨by trivial, ?_, ?_⟩
    · by_cases hp : |wakatime - manual| / manual * 100 < 5
      · simp [hp]
      · simp only [hp, if_false]
        by_cases hgt : wakatime - manual > 0 <;> simp [hgt, hp]
    · intro hp
      simp only [hp, if_false, gt_iff_lt, sub_pos]

/-- C9 witness instantiating all three branches: (0,0), (0,3) and (10,12),
where the last has percentage 20 and wakatime above manual. -/
theorem c9_witness :
    calculateDiscrepancy 0 0 = (0, "match") ∧
    calculateDiscrepancy 0 3 = (100, "over") ∧
    (calculateDiscrepancy 10 12).1 = |(12 : Rat) - 10| / 10 * 100 ∧
    (calculateDiscrepancy 10 12).2 = if (10 : Rat) < 12 then "over" else "under" := by
  refine ⟨(c9_classify 0 0).1 ⟨rfl, rfl⟩, (c9_classify 0 3).2.1 ⟨rfl, by norm_num⟩, ?_, ?_⟩
  · exact ((c9_classify 10 12).2.2 (by norm_num)).1
  · exact ((c9_classify 10 12).2.2 (by norm_num)).2.2 (by norm_num)

/-! ## Lemmas: WakaTime aggregation over zero-activity days -/

theorem foldl_totalsStep_zero : ∀ (l : List WakaDay),
    (∀ d ∈ l, d.grand_total = some 0) →
    ∀ acc : Rat × Nat, l.foldl totalsStep acc = acc := by
  intro l
  induction l with
  | nil => intro _ acc; rfl
  | cons d ds ih =>
    intro h acc
    simp only [List.foldl_cons]
    have hstep : totalsStep acc d = acc := by
      simp [totalsStep, h d (by simp)]
    rw [hstep]
    exact ih (fun d hd => h d (by simp [hd])) acc

theorem upsert_head_zero {k0 : String} (m : List (String × Rat)) (k : String) (v : Rat)
    (hv : v = 0) (hh : m.head? = some (k0, 0)) : (upsert m k v).head? = some (k0, 0) := by
  cases m with
  | nil => simp at hh
  | cons p rest =>
    obtain ⟨a, b⟩ := p
    simp only [List.head?_cons, Option.some.injEq] at hh
    have ha : a = k0 := (Prod.ext_iff.mp hh).1
    simp only [upsert]
    by_cases hak : a = k
    · rw [if_pos hak]
      simp only [List.head?_cons, Option.some.injEq]
      exact Prod.ext (by rw [← hak, ha]) hv
    · rw [if_neg hak]
      simp only [List.head?_cons, Option.some.injEq]
      exact hh

theorem upsert_all_zero (m : List (String × Rat)) (k : String) (v : Rat) (hv : v = 0)
    (h : ∀ p ∈ m, p.2 = 0) : ∀ p ∈ upsert m k v, p.2 = 0 := by
  induction m with
  | nil =>
    intro p hp
    simp only [upsert, List.mem_singleton] at hp
    subst hp
    exact hv
  | cons q rest ih =>
    obtain ⟨a, b⟩ := q
    intro p hp
    simp only [upsert] at hp
    by_cases hak : a = k
    · rw [if_pos hak] at hp
      rcases List.mem_cons.mp hp with rfl | hp2
      · exact hv
      · exact h p (by simp [hp2])
    · rw [if_neg hak] at hp
      rcases List.mem_cons.mp hp with rfl | hp2
      · exact h (a, b) (by simp)
      · exact ih (fun q hq => h q (by simp [hq])) p hp2

theorem breakdown_invariant (k0 : String) :
    ∀ (l : List WakaDay) (acc : List (String × Rat)),
      (∀ d ∈ l, wakaDateStr d ≠ "" ∧ d.grand_total = some 0) →
      acc.head? = some (k0, 0) → (∀ p ∈ acc, p.2 = 0) →
      (l.foldl breakdownStep acc).head? = some (k0, 0) ∧
      ∀ p ∈ l.foldl breakdownStep acc, p.2 = 0 := by
  intro l
  induction l with
  | nil => intro acc _ hh hz; exact ⟨hh, hz⟩
  | cons d ds ih =>
    intro acc h hh hz
    simp only [List.foldl_cons]
    have hd := h d (by simp)
    have hstep : breakdownStep acc d = upsert acc (wakaDateStr d) 0 := by
      simp [breakdownStep, hd.1, hd.2]
    rw [hstep]
    exact ih _ (fun d hdm => h d (by simp [hdm]))
      (upsert_head_zero _ _ _ rfl hh)
      (upsert_all_zero _ _ _ rfl hz)

theorem foldl_max_zero : ∀ (l : List (String × Rat)), (∀ p ∈ l, p.2 = 0) →
    ∀ (e : String × Rat), e.2 = 0 →
    l.foldl (fun mx cur => if cur.2 > mx.2 then cur else mx) e = e := by
  intro l
  induction l with
  | nil => intro _ e _; rfl
  | cons p ps ih =>
    intro h e he
    simp only [List.foldl_cons]
    have hp : p.2 = 0 := h p (by simp)
    have hno : ¬ p.2 > e.2 := by
      rw [hp, he]
      exact lt_irrefl 0
    rw [if_neg hno]
    exact ih (fun q hq => h q (by simp [hq])) e he

/-! ## Claim C10 -/

/-- C10: on a non-empty day list in which every record carries a valid date
but zero total_seconds, parseWakaTimeResponse returns daysWithData = 0 and
averageHoursPerDay = 0, yet mostProductiveDay is not null: it is the first
record's date with hours = 0, because the daily breakdown includes
zero-activity days and the reduce keeps the first entry on ties. -/
theorem c10_zero_activity (d0 : WakaDay) (rest : List WakaDay) (startS endS pn : String)
    (h : ∀ d ∈ d0 :: rest, wakaDateStr d ≠ "" ∧ d.grand_total = some 0) :
    (parseWakaTimeResponse ⟨d0 :: rest, startS, endS⟩ pn).daysWithData = 0 ∧
    (parseWakaTimeResponse ⟨d0 :: rest, startS, endS⟩ pn).averageHoursPerDay = 0 ∧
    (parseWakaTimeResponse ⟨d0 :: rest, startS, endS⟩ pn).mostProductiveDay =
      some (wakaDateStr d0, 0) := by
  have htot : (d0 :: rest).foldl totalsStep ((0 : Rat), (0 : Nat)) = (0, 0) :=
    foldl_totalsStep_zero _ (fun d hd => (h d hd).2) _
  have hd0 := h d0 (by simp)
  have hstep0 : breakdownStep [] d0 = [(wakaDateStr d0, 0)] := by
    simp [breakdownStep, hd0.1, hd0.2, upsert]
  have hbd := breakdown_invariant (wakaDateStr d0) rest (breakdownStep [] d0)
    (fun d hd => h d (by simp [hd]))
    (by rw [hstep0]; rfl)
    (by
      rw [hstep0]
      intro p hp
      simp only [List.mem_singleton] at hp
      subst hp
      rfl)
  obtain ⟨hh, hz⟩ := hbd
  refine ⟨?_, ?_, ?_⟩
  · simp only [parseWakaTimeResponse, htot]
  · simp only [parseWakaTimeResponse, htot]
    simp
  · simp only [parseWakaTimeResponse, calculateDailyBreakdown, List.foldl_cons]
    cases hbd2 : rest.foldl breakdownStep (breakdownStep [] d0) with
    | nil =>
      rw [hbd2] at hh
      simp at hh
    | cons b bs =>
      rw [hbd2] at hh hz
      simp only [List.head?_cons, Option.some.injEq] at hh
      simp only [findMostProductiveDay]
      rw [foldl_max_zero bs (fun q hq => hz q (by simp [hq])) b (by rw [hh])]
      rw [hh]

/-- C10 witness at two concrete zero-activity days 2025-01-01 and
2025-01-02. -/
theorem c10_witness :
    (parseWakaTimeResponse ⟨[⟨some "2025-01-01", none, some 0, none, none, none⟩,
        ⟨some "2025-01-02", none, some 0, none, none, none⟩], "s", "e"⟩
      "proj").daysWithData = 0 ∧
    (parseWakaTimeResponse ⟨[⟨some "2025-01-01", none, some 0, none, none, none⟩,
        ⟨some "2025-01-02", none, some 0, none, none, none⟩], "s", "e"⟩
      "proj").averageHoursPerDay = 0 ∧
    (parseWakaTimeResponse ⟨[⟨some "2025-01-01", none, some 0, none, none, none⟩,
        ⟨some "2025-01-02", none, some 0, none, none, none⟩], "s", "e"⟩
      "proj").mostProductiveDay = some ("2025-01-01", 0) :=
  c10_zero_activity ⟨some "2025-01-01", none, some 0, none, none, none⟩
    [⟨some "2025-01-02", none, some 0, none, none, none⟩] "s" "e" "proj"
    (by
      intro d hd
      rcases List.mem_cons.mp hd with rfl | hd2
      · exact ⟨by decide, rfl⟩
      · rcases List.mem_singleton.mp hd2 with rfl
        exact ⟨by decide, rfl⟩)
